import Mathlib

/-!
# A shallow embedding of the `CoreInstance` request dispatcher

This file models the per-instance request dispatcher of `src/core/instance.ts`
(class `CoreInstance`): the container state machine, the lifecycle coordination
(`activate` / `release` over all registered services) and the three entry
points `remoteRequest`, `eventRequest` and `httpRequest`.

Modelling conventions:
* JavaScript values are the inductive `Value`; `undefined` is modelled as
  `Value.null` where a value is required, and as `Option.none` where the code
  tests for presence.
* Thrown errors are the inductive `Err`; fallible code returns `Except Err`.
* Mutation of the instance field `istate` is modelled by explicit state
  passing; each entry point returns the result, the final `istate`, and a
  `Trace` of the observable external calls it made (container lookups,
  lifecycle hooks that were run, handler invocations).  The trace records the
  calls in program order and is what makes "X was / was not invoked"
  statements expressible.
* The external collaborators (metadata registry, dependency container,
  security provider) and the per-service hooks and handlers are supplied by
  an `Env` record and are universally quantified in the theorems.
* The logger is side effect only and never affects control flow (spec section
  1); `this.log.error(e)` returns its argument, so `throw this.log.error(e)`
  is modelled as throwing `e` itself.
-/

namespace Tyx

/-- `ContainerState` from `src/types` as used by `CoreInstance`. -/
inductive ContainerState
  | Pending
  | Ready
  | Reserved
  | Busy
deriving DecidableEq, Repr

/-- JSON-like runtime values (handler arguments, records, results). -/
inductive Value
  | null
  | bool (b : Bool)
  | num (n : Int)
  | str (s : String)
  | arr (elems : List Value)
  | obj (fields : List (String × Value))
deriving Repr

/-- The error kinds that can be thrown during a dispatch.
`internalServerError` covers the `InternalServerError` class (state errors),
`notFound` the `NotFound` class, `typeError` the runtime TypeError raised by
a property access or call on `undefined`, `custom` any error thrown by
environment-supplied code (auth, hooks, handlers, adapters), and `wrapped`
an error wrapped by `InternalServerError.wrap`. -/
inductive Err
  | internalServerError (message : String)
  | notFound (message : String)
  | typeError (message : String)
  | custom (message : String)
  | wrapped (cause : Err)
deriving DecidableEq, Repr

/-- Modelled from the spec: `InternalServerError.wrap` (the `src/errors`
module is not under `src/`).  Per spec sections 4.6 and 7, an error is
"wrapped into a generic internal error to the caller, original cause
preserved". -/
def wrapErr (e : Err) : Err := Err.wrapped e

/-- The `auth` part of the per-request security context that `httpRequest`
reads (`ctx.auth.renewed`, `ctx.auth.token`). -/
structure AuthInfo where
  renewed : Bool := false
  token : Option String := none
deriving DecidableEq, Repr

/-- The opaque per-request context produced by the security provider. -/
structure Context where
  auth : AuthInfo := {}
deriving DecidableEq, Repr

/-- JavaScript truthiness of `ctx.auth.token` (absent or empty is falsy). -/
def tokenTruthy : Option String → Bool
  | none => false
  | some t => t != ""

/-- Rendering of a possibly-undefined string inside a template literal
(JavaScript renders `undefined`). -/
def optStr : Option String → String
  | none => "undefined"
  | some s => s

/-- `RemoteRequest` from `src/types`: the fields read by `remoteRequest`. -/
structure RemoteRequest where
  application : String
  service : String
  method : String
  args : List Value
deriving Repr

/-- `EventRequest` from `src/types`.  `type`, `record`, `application`,
`service` and `method` are populated by the dispatcher during resolution. -/
structure EventRequest where
  type : Option String := none
  source : String
  resource : String
  action : String
  object : String
  records : List Value
  record : Option Value := none
  application : Option String := none
  service : Option String := none
  method : Option String := none
deriving Repr

/-- One entry of `EventResult.returns`. -/
structure EventReturn where
  service : String
  method : String
  error : Option Err
  data : Option Value
deriving Repr

/-- `EventResult` from `src/types`; `status` starts out `null`. -/
structure EventResult where
  status : Option String
  source : String
  action : String
  resource : String
  object : String
  returns : List EventReturn
deriving Repr

/-- The part of `req.contentType` read by `httpRequest` (`domainModel`). -/
structure HttpContentType where
  domainModel : Option String := none
deriving DecidableEq, Repr

/-- `HttpRequest` from `src/types`: the fields read by `httpRequest`. -/
structure HttpRequest where
  type : Option String := none
  httpMethod : String
  resource : String
  contentType : HttpContentType := {}
  pathParameters : Option (List (String × String)) := none
  queryStringParameters : Option (List (String × String)) := none
  application : Option String := none
  service : Option String := none
  method : Option String := none
deriving Repr

/-- The declared content type of a method: either an ordinary string or the
`HttpResponse` class object used as the raw-response sentinel
(`contentType !== HttpResponse` on line 257). -/
inductive ContentTypeDecl
  | text (value : String)
  | httpResponseClass
deriving DecidableEq, Repr

/-- The string a declared content type contributes to a wrapped response. -/
def ContentTypeDecl.render : ContentTypeDecl → String
  | .text v => v
  | .httpResponseClass => "HttpResponse"

/-- One entry of `method.bindings`: an optional pure binder function
evaluated against `(ctx, req)` to produce a positional argument. -/
structure HttpBinding where
  binder : Option (Context → HttpRequest → Value) := none

/-- The per-route part of a method's HTTP metadata (`method.http[route]`):
the declared status code and the optional custom adapter. -/
structure HttpRouteMeta where
  code : Int
  adapter : Option ((List Value → Except Err Value) → Context → HttpRequest →
      List (String × String) → List (String × String) → Except Err Value) := none

/-- `MethodMetadata`: the fields of a method descriptor read by the
dispatcher. -/
structure MethodMetadata where
  name : String
  contentType : Option ContentTypeDecl := none
  bindings : List HttpBinding := []
  http : String → Option HttpRouteMeta := fun _ => none

/-- The wildcard filters of an event registration (`target[route]`). -/
structure EventFilter where
  actionFilter : String
  objectFilter : String
deriving DecidableEq, Repr

/-- One registered event target (an entry of `Metadata.events[route]`). -/
structure EventTargetMeta where
  service : String
  method : String
  adapter : Option ((Context → EventRequest → Except Err Value) → Context →
      EventRequest → Except Err Value) := none
  routes : String → Option EventFilter := fun _ => none

/-- One registered HTTP route target (an entry of `Metadata.routes`). -/
structure RouteTargetMeta where
  service : String
  method : String
deriving DecidableEq, Repr

/-- A service instance as the dispatcher sees it: the optional lifecycle
hooks and the methods reachable by name.  A method is one JavaScript
function; the three maps model the three call shapes the dispatcher uses
(`handler.apply(service, req.args)`, `handler.call(service, ctx, req)`,
`handler.apply(service, args)`).  `none` models an absent property. -/
structure ServiceObj where
  activate : Option (Context → Except Err Unit) := none
  release : Option (Context → Except Err Unit) := none
  remoteMethods : String → Option (List Value → Except Err Value) := fun _ => none
  eventMethods : String → Option (Context → EventRequest → Except Err Value) := fun _ => none
  httpMethods : String → Option (List Value → Except Err Value) := fun _ => none

/-- Observable external calls made by the dispatcher, in program order. -/
inductive TEvent
  | containerGet (id : String)
  | activateHook (serviceId : String)
  | releaseHook (serviceId : String)
  | invoke (service : String) (method : String)
deriving DecidableEq, Repr

/-- An execution trace: the observable calls of one dispatch. -/
abbrev Trace := List TEvent

/-- Modelled from the spec: `Utils.wildcardMatch` (the `src/utils` module is
not under `src/`).  Per spec section 4.2 the action and object filters are a
"wildcard pattern match ... (glob-style, not regex)": `*` matches any
sequence of characters and `?` any single character. -/
def globMatch : List Char → List Char → Bool
  | [], s => s.isEmpty
  | '*' :: ps, s => s.tails.any fun t => globMatch ps t
  | _ :: _, [] => false
  | '?' :: ps, _ :: cs => globMatch ps cs
  | p :: ps, c :: cs => p == c && globMatch ps cs

/-- Modelled from the spec: `Utils.wildcardMatch` applied to strings. -/
def wildcardMatch (pattern value : String) : Bool :=
  globMatch pattern.toList value.toList

/-- Property read on a JavaScript object value. -/
def objGet : Value → String → Option Value
  | Value.obj fields, key => fields.lookup key
  | _, _ => none

/-- Property write on a JavaScript object value (assignment to a property of
a non-object primitive is a silent no-op in non-strict code). -/
def objSet : Value → String → Value → Value
  | Value.obj fields, key, v =>
      if (fields.lookup key).isSome then
        Value.obj (fields.map fun kv => if kv.1 = key then (key, v) else kv)
      else
        Value.obj (fields ++ [(key, v)])
  | v, _, _ => v

/-- The environment of one `CoreInstance`: its configured application, the
read-only metadata registry, the dependency container, the configuration
resource aliases and the security provider.  `httpNormalize` stands for
`HttpUtils.request` (the `src/utils` module is not under `src/`; the spec
does not constrain it, so it is an arbitrary request transformation). -/
structure Env where
  application : String
  configResources : Option (String → Option String) := none
  services : List String := []
  containerGet : String → Option ServiceObj := fun _ => none
  methods : String → Option MethodMetadata := fun _ => none
  events : String → Option (List EventTargetMeta) := fun _ => none
  routes : String → Option RouteTargetMeta := fun _ => none
  remoteAuth : RemoteRequest → MethodMetadata → Except Err Context := fun _ _ => Except.ok {}
  eventAuth : EventRequest → Option MethodMetadata → Except Err Context := fun _ _ => Except.ok {}
  httpAuth : HttpRequest → Option MethodMetadata → Except Err Context := fun _ _ => Except.ok {}
  httpNormalize : HttpRequest → HttpRequest := id

/-- Lines 277-287: the body of `activate` — iterate the registered services
in registration order, fetch each from the container and run its optional
`activate` hook; the catch logs and rethrows, so the first failure aborts
the iteration. -/
def activateLoop (env : Env) (ctx : Context) : List String → Except Err Unit × Trace
  | [] => (Except.ok (), [])
  | sid :: rest =>
    let step : Except Err Unit × Trace :=
      match env.containerGet sid with
      | none => (Except.error (Err.typeError ("service is undefined [" ++ sid ++ "]")),
          [TEvent.containerGet sid])
      | some service =>
        match service.activate with
        | some hook => (hook ctx, [TEvent.containerGet sid, TEvent.activateHook sid])
        | none => (Except.ok (), [TEvent.containerGet sid])
    match step.1 with
    | Except.error e => (Except.error e, step.2)
    | Except.ok _ =>
      let r := activateLoop env ctx rest
      (r.1, step.2 ++ r.2)

/-- Lines 276-289: `activate(ctx)` returns `ctx` when every hook succeeded
and rethrows the first hook failure. -/
def activate (env : Env) (ctx : Context) : Except Err Context × Trace :=
  let r := activateLoop env ctx env.services
  match r.1 with
  | Except.error e => (Except.error e, r.2)
  | Except.ok _ => (Except.ok ctx, r.2)

/-- Lines 292-301: the body of `release` — same iteration, but each hook
failure is caught, logged and swallowed, so the iteration always continues
and never throws. -/
def releaseLoop (env : Env) (ctx : Context) : List String → Except Err Unit × Trace
  | [] => (Except.ok (), [])
  | sid :: rest =>
    let step : Except Err Unit × Trace :=
      match env.containerGet sid with
      | none => (Except.error (Err.typeError ("service is undefined [" ++ sid ++ "]")),
          [TEvent.containerGet sid])
      | some service =>
        match service.release with
        | some hook => (hook ctx, [TEvent.containerGet sid, TEvent.releaseHook sid])
        | none => (Except.ok (), [TEvent.containerGet sid])
    match step.1 with
    | Except.error _ =>
      let r := releaseLoop env ctx rest
      (r.1, step.2 ++ r.2)
    | Except.ok _ =>
      let r := releaseLoop env ctx rest
      (r.1, step.2 ++ r.2)

/-- Lines 291-302: `release(ctx)`. -/
def release (env : Env) (ctx : Context) : Except Err Unit × Trace :=
  releaseLoop env ctx env.services

/-- Lines 89-117: the `try` body of `remoteRequest` — application check,
service and method resolution, auth, then the inner
`try { activate; invoke } catch { rethrow } finally { release }`. -/
def remoteBody (env : Env) (req : RemoteRequest) : Except Err Value × Trace :=
  if req.application ≠ env.application then
    (Except.error (Err.notFound ("Application not found [" ++ req.application ++ "]")), [])
  else
    let t0 : Trace := [TEvent.containerGet req.service]
    match env.containerGet req.service with
    | none => (Except.error (Err.notFound ("Service not found [" ++ req.service ++ "]")), t0)
    | some service =>
      let methodId := req.service ++ "." ++ req.method
      match env.methods methodId with
      | none => (Except.error (Err.notFound ("Method not found [" ++ methodId ++ "]")), t0)
      | some metadata =>
        match env.remoteAuth req metadata with
        | Except.error e => (Except.error e, t0)
        | Except.ok ctx =>
          let act := activate env ctx
          let body : Except Err Value × Trace :=
            match act.1 with
            | Except.error e => (Except.error e, act.2)
            | Except.ok _ =>
              match service.remoteMethods metadata.name with
              | none =>
                (Except.error (Err.typeError ("handler is not a function [" ++ metadata.name ++ "]")),
                  act.2)
              | some handler =>
                (handler req.args, act.2 ++ [TEvent.invoke req.service metadata.name])
          let rel := release env ctx
          let final : Except Err Value :=
            match rel.1 with
            | Except.error e2 => Except.error e2
            | Except.ok _ => body.1
          (final, t0 ++ body.2 ++ rel.2)

/-- Lines 85-118: `remoteRequest` — the `Ready` guard, `Reserved`/`Busy`
transitions, and the outer `finally` that resets `istate` to `Ready` on
every exit from the `try`. -/
def remoteRequest (env : Env) (istate : ContainerState) (req : RemoteRequest) :
    Except Err Value × ContainerState × Trace :=
  if istate ≠ ContainerState.Ready then
    (Except.error (Err.internalServerError ("Invalid container state")), istate, [])
  else
    let b := remoteBody env req
    (b.1, ContainerState.Ready, b.2)

/-- Lines 128-135: route key construction with the configured resource alias
as fallback; returns the route string actually used together with the
looked-up registration list. -/
def eventLookup (env : Env) (req : EventRequest) : String × Option (List EventTargetMeta) :=
  let route1 := req.source ++ " " ++ req.resource
  let aliasName :=
    match env.configResources with
    | none => none
    | some resources => resources req.resource
  match env.events route1 with
  | some ms => (route1, some ms)
  | none =>
    let route2 := req.source ++ " " ++ optStr aliasName
    (route2, env.events route2)

/-- Lines 166-182: the record loop of one event target.  Returns the error
that escaped the loop (if any), the accumulated result, the mutated request
and the trace.  A throwing record exits the loop immediately. -/
def eventRecords (service : ServiceObj) (target : EventTargetMeta) (ctx : Context)
    (req : EventRequest) (result : EventResult) :
    List Value → Option Err × EventResult × EventRequest × Trace
  | [] => (none, result, req, [])
  | record :: rest =>
    let req := { req with record := some record }
    let invocation : Except Err Value × Trace :=
      match service.eventMethods target.method with
      | none =>
        (Except.error (Err.typeError ("handler is not a function [" ++ target.method ++ "]")), [])
      | some handler =>
        match target.adapter with
        | some adapter => (adapter handler ctx req, [TEvent.invoke target.service target.method])
        | none => (handler ctx req, [TEvent.invoke target.service target.method])
    match invocation.1 with
    | Except.error e => (some e, result, req, invocation.2)
    | Except.ok data =>
      let result := { result with
        status := some ((result.status).getD ("OK")),
        returns := result.returns ++
          [{ service := target.service, method := target.method, error := none, data := some data }] }
      let r := eventRecords service target ctx req result rest
      (r.1, r.2.1, r.2.2.1, invocation.2 ++ r.2.2.2)

/-- Lines 164-191: the `try { activate; records } catch { record failure }`
block of one event target: an error thrown by `activate` or by a record sets
the overall status to `FAILED` and appends a single wrapped error entry. -/
def eventTargetRun (env : Env) (service : ServiceObj) (target : EventTargetMeta)
    (ctx : Context) (req : EventRequest) (result : EventResult) :
    EventResult × EventRequest × Trace :=
  let act := activate env ctx
  match act.1 with
  | Except.error e =>
    ({ result with
        status := some ("FAILED"),
        returns := result.returns ++
          [{ service := target.service, method := target.method,
             error := some (wrapErr e), data := none }] },
      req, act.2)
  | Except.ok _ =>
    let r := eventRecords service target ctx req result req.records
    match r.1 with
    | none => (r.2.1, r.2.2.1, act.2 ++ r.2.2.2)
    | some e =>
      ({ r.2.1 with
          status := some ("FAILED"),
          returns := (r.2.1).returns ++
            [{ service := target.service, method := target.method,
               error := some (wrapErr e), data := none }] },
        r.2.2.1, act.2 ++ r.2.2.2)

/-- Lines 147-196: the target loop of `eventRequest`.  Service lookup and the
wildcard filters run before the per-target `try`, so a missing service or a
missing filter entry aborts the whole request, a filtered-out target is
silently skipped, and an auth failure aborts the whole request; the
per-target `finally` runs `release`. -/
def eventTargets (env : Env) (route : String) (req : EventRequest) (result : EventResult) :
    List EventTargetMeta → Except Err EventResult × EventRequest × Trace
  | [] => (Except.ok result, req, [])
  | target :: rest =>
    let t0 : Trace := [TEvent.containerGet target.service]
    match env.containerGet target.service with
    | none =>
      (Except.error (Err.notFound ("Service not found [" ++ optStr req.service ++ "]")), req, t0)
    | some service =>
      let methodId := target.service ++ "." ++ target.method
      let method := env.methods methodId
      match target.routes route with
      | none =>
        (Except.error (Err.typeError ("route filter is undefined [" ++ route ++ "]")), req, t0)
      | some filter =>
        if !(wildcardMatch filter.actionFilter req.action)
            || !(wildcardMatch filter.objectFilter req.object) then
          let r := eventTargets env route req result rest
          (r.1, r.2.1, t0 ++ r.2.2)
        else
          let req := { req with
            application := some env.application,
            service := some target.service,
            method := some target.method }
          match env.eventAuth req method with
          | Except.error e => (Except.error e, req, t0)
          | Except.ok ctx =>
            let run := eventTargetRun env service target ctx req result
            let rel := release env ctx
            match rel.1 with
            | Except.error e2 => (Except.error e2, run.2.1, t0 ++ run.2.2 ++ rel.2)
            | Except.ok _ =>
              let r := eventTargets env route run.2.1 run.1 rest
              (r.1, r.2.1, t0 ++ run.2.2 ++ rel.2 ++ r.2.2)

/-- Lines 124-198: the `try` body of `eventRequest` — route lookup with alias
fallback (`NotFound` when neither key is registered), fan-out over the
targets, and the final `result.status = result.status || "NOP"`. -/
def eventBody (env : Env) (req0 : EventRequest) : Except Err EventResult × Trace :=
  let req := { req0 with type := some ("event") }
  match eventLookup env req with
  | (route, none) =>
    (Except.error (Err.notFound
        ("Event handler not found [" ++ route ++ "] [" ++ req.object ++ "]")), [])
  | (route, some metadatas) =>
    let result : EventResult :=
      { status := none, source := req.source, action := req.action,
        resource := req.resource, object := req.object, returns := [] }
    let r := eventTargets env route req result metadatas
    match r.1 with
    | Except.error e => (Except.error e, r.2.2)
    | Except.ok result2 =>
      (Except.ok { result2 with status := some ((result2.status).getD ("NOP")) }, r.2.2)

/-- Lines 120-202: `eventRequest` — the `Ready` guard and the outer `finally`
that resets `istate` to `Ready`. -/
def eventRequest (env : Env) (istate : ContainerState) (req : EventRequest) :
    Except Err EventResult × ContainerState × Trace :=
  if istate ≠ ContainerState.Ready then
    (Except.error (Err.internalServerError ("Invalid container state")), istate, [])
  else
    let b := eventBody env req
    (b.1, ContainerState.Ready, b.2)

/-- Lines 238-254: handler invocation for an HTTP request — either the custom
adapter applied to the bound handler, context, request and the (defaulted)
path and query parameters, or the positional argument array built from the
declared binders. -/
def httpInvoke (service : ServiceObj) (method : MethodMetadata) (http : HttpRouteMeta)
    (ctx : Context) (req : HttpRequest) : Except Err Value × Trace :=
  match service.httpMethods method.name with
  | none =>
    (Except.error (Err.typeError ("handler is not a function [" ++ method.name ++ "]")), [])
  | some handler =>
    match http.adapter with
    | some adapter =>
      (adapter handler ctx req ((req.pathParameters).getD []) ((req.queryStringParameters).getD []),
        [TEvent.invoke (optStr req.service) method.name])
    | none =>
      let args := method.bindings.map fun b =>
        match b.binder with
        | some binder => binder ctx req
        | none => Value.null
      (handler args, [TEvent.invoke (optStr req.service) method.name])

/-- Lines 258-261: inject the renewed auth token as a `Token` response
header (`result.headers = result.headers || {}; result.headers["Token"]`). -/
def injectToken (ctx : Context) (result : Value) : Value :=
  if ctx.auth.renewed && tokenTruthy ctx.auth.token then
    let headers := (objGet result ("headers")).getD (Value.obj [])
    objSet result ("headers") (objSet headers ("Token") (Value.str ((ctx.auth.token).getD (""))))
  else result

/-- Lines 208-270: the `try` body of `httpRequest` — normalization, route key
construction (with the `:domainModel` suffix), resolution, auth, then the
inner `try { activate; invoke; normalize response } catch { wrap } finally
{ release }`.  Response normalization wraps the handler value as
`{statusCode, body, contentType}` unless the declared content type is the
`HttpResponse` sentinel, then injects the renewed token header. -/
def httpBody (env : Env) (req0 : HttpRequest) : Except Err Value × Trace :=
  let req := env.httpNormalize { req0 with type := some ("http") }
  let route0 := req.httpMethod ++ " " ++ req.resource
  let route :=
    match req.contentType.domainModel with
    | some dm => route0 ++ ":" ++ dm
    | none => route0
  match env.routes route with
  | none => (Except.error (Err.notFound ("Route not found [" ++ route ++ "]")), [])
  | some target =>
    let t0 : Trace := [TEvent.containerGet target.service]
    match env.containerGet target.service with
    | none =>
      (Except.error (Err.notFound ("Service not found [" ++ optStr req.service ++ "]")), t0)
    | some service =>
      let methodId := target.service ++ "." ++ target.method
      let metadata := env.methods methodId
      let req := { req with
        application := some env.application,
        service := some target.service,
        method := some target.method }
      match env.httpAuth req metadata with
      | Except.error e => (Except.error e, t0)
      | Except.ok ctx =>
        let act := activate env ctx
        let body : Except Err Value × Trace :=
          match act.1 with
          | Except.error e => (Except.error e, act.2)
          | Except.ok _ =>
            match metadata with
            | none =>
              (Except.error (Err.typeError ("method metadata is undefined [" ++ methodId ++ "]")),
                act.2)
            | some method =>
              match method.http route with
              | none =>
                (Except.error (Err.typeError ("http metadata is undefined [" ++ route ++ "]")),
                  act.2)
              | some http =>
                let inv := httpInvoke service method http ctx req
                match inv.1 with
                | Except.error e => (Except.error e, act.2 ++ inv.2)
                | Except.ok result0 =>
                  let contentType := (method.contentType).getD (ContentTypeDecl.text ("application/json"))
                  let result1 :=
                    if contentType ≠ ContentTypeDecl.httpResponseClass then
                      Value.obj [(("statusCode"), Value.num http.code),
                        (("body"), result0),
                        (("contentType"), Value.str contentType.render)]
                    else result0
                  (Except.ok (injectToken ctx result1), act.2 ++ inv.2)
        let rel := release env ctx
        let final : Except Err Value :=
          match rel.1 with
          | Except.error e2 => Except.error e2
          | Except.ok _ =>
            match body.1 with
            | Except.error e => Except.error (wrapErr e)
            | Except.ok v => Except.ok v
        (final, t0 ++ body.2 ++ rel.2)

/-- Lines 204-274: `httpRequest` — the `Ready` guard and the outer `finally`
that resets `istate` to `Ready`. -/
def httpRequest (env : Env) (istate : ContainerState) (req : HttpRequest) :
    Except Err Value × ContainerState × Trace :=
  if istate ≠ ContainerState.Ready then
    (Except.error (Err.internalServerError ("Invalid container state")), istate, [])
  else
    let b := httpBody env req
    (b.1, ContainerState.Ready, b.2)

/-- Replace a service's `release` hook (used to state that request outcomes
are independent of the release hooks). -/
def ServiceObj.withRelease (s : ServiceObj) (hook : Option (Context → Except Err Unit)) :
    ServiceObj :=
  { s with release := hook }

/-- Replace every service's `release` hook in an environment. -/
def Env.withRelease (env : Env) (hooks : String → Option (Context → Except Err Unit)) : Env :=
  { env with containerGet := fun sid =>
      (env.containerGet sid).map fun s => ServiceObj.withRelease s (hooks sid) }

/-- The failure entry the catch block of one event target appends. -/
def errReturn (target : EventTargetMeta) (e : Err) : EventReturn :=
  { service := target.service, method := target.method, error := some (wrapErr e), data := none }

/-- The success entry one record appends. -/
def okReturn (target : EventTargetMeta) (data : Value) : EventReturn :=
  { service := target.service, method := target.method, error := none, data := some data }

/-! ### Concrete instances used to evaluate the model on closed inputs -/

/-- A default security context. -/
def ctx0 : Context := {}

/-- A minimal remote request addressed to application `app`. -/
def reqRemoteW : RemoteRequest :=
  { application := "app", service := "svc", method := "m", args := [] }

/-- A minimal event request with no records. -/
def reqEventW : EventRequest :=
  { source := "src", resource := "res", action := "act", object := "obj", records := [] }

/-- An event request with a given record list. -/
def reqEvent2 (rs : List Value) : EventRequest :=
  { source := "src", resource := "res", action := "act", object := "obj", records := rs }

/-- A minimal HTTP request. -/
def reqHttpW : HttpRequest := { httpMethod := "GET", resource := "/x" }

/-- An environment with nothing registered. -/
def envW : Env := { application := "app" }

/-- An empty environment configured for a different application. -/
def envOther : Env := { application := "other" }

/-- A service whose only member is one event handler. -/
def evSvc (methodName : String) (f : Context → EventRequest → Except Err Value) : ServiceObj :=
  { eventMethods := fun m => if m = methodName then some f else none }

/-- An event registration under route `src res` with match-all filters. -/
def evTarget (serviceId methodName : String) : EventTargetMeta :=
  { service := serviceId, method := methodName,
    routes := fun rt =>
      if rt = "src res" then some { actionFilter := "*", objectFilter := "*" } else none }

/-- An environment with two event targets `a.m` and `b.n` registered under
`src res`, with the given handlers. -/
def envTwoTargets (fa fb : Context → EventRequest → Except Err Value) : Env :=
  { application := "app",
    events := fun r => if r = "src res" then some [evTarget ("a") ("m"), evTarget ("b") ("n")] else none,
    containerGet := fun sid =>
      if sid = "a" then some (evSvc ("m") fa)
      else if sid = "b" then some (evSvc ("n") fb)
      else none }

/-- An environment with a single event target `a.m` registered under
`src res`. -/
def envOneTarget (fa : Context → EventRequest → Except Err Value) : Env :=
  { application := "app",
    events := fun r => if r = "src res" then some [evTarget ("a") ("m")] else none,
    containerGet := fun sid => if sid = "a" then some (evSvc ("m") fa) else none }

/-- A single event target whose record handler always throws. -/
def envC3c : Env := envOneTarget (fun _ _ => Except.error (Err.custom ("recFail")))

/-- A two-record event request for `envC3c`. -/
def reqC3c : EventRequest := reqEvent2 [Value.num 1, Value.num 2]

/-- A registered service whose `activate` hook always throws, with handlers
for all three request kinds and a `release` hook. -/
def svcActFail : ServiceObj :=
  { activate := some (fun _ => Except.error (Err.custom ("actFail"))),
    release := some (fun _ => Except.ok ()),
    remoteMethods := fun m => if m = "m" then some (fun _ => Except.ok (Value.num 7)) else none,
    eventMethods := fun m => if m = "m" then some (fun _ _ => Except.ok (Value.num 7)) else none,
    httpMethods := fun m => if m = "m" then some (fun _ => Except.ok (Value.num 7)) else none }

/-- The HTTP route metadata of `svc.m` under `GET /x`. -/
def httpMetaC4 : HttpRouteMeta := { code := 200 }

/-- The method metadata of `svc.m`. -/
def mdC4 : MethodMetadata :=
  { name := "m", http := fun rt => if rt = "GET /x" then some httpMetaC4 else none }

/-- The HTTP route target `svc.m`. -/
def rtC4 : RouteTargetMeta := { service := "svc", method := "m" }

/-- An environment whose sole registered service `svc` fails activation; it
is also the target of the remote method `svc.m`, of the event route
`src res`, and of the HTTP route `GET /x`. -/
def envC4 : Env :=
  { application := "app",
    services := ["svc"],
    containerGet := fun sid => if sid = "svc" then some svcActFail else none,
    events := fun r => if r = "src res" then some [evTarget ("svc") ("m")] else none,
    methods := fun mid => if mid = "svc.m" then some mdC4 else none,
    routes := fun rt => if rt = "GET /x" then some rtC4 else none }

/-- `reqHttpW` as it stands after the dispatcher sets `type` (the identity
`httpNormalize` of the concrete environments leaves it unchanged). -/
def reqHttpN : HttpRequest := { reqHttpW with type := some ("http") }

/-- `reqHttpN` as it stands after resolution populates application, service
and method. -/
def reqHttpM : HttpRequest :=
  { reqHttpN with application := some ("app"), service := some ("svc"), method := some ("m") }

/-- An environment whose sole registered service `a` has a `release` hook
that always throws, and a remote method `a.m` returning `3`. -/
def envC5 : Env :=
  { application := "app",
    services := ["a"],
    containerGet := fun sid =>
      if sid = "a" then
        some { release := some (fun _ => Except.error (Err.custom ("relFail"))),
               remoteMethods := fun m => if m = "m" then some (fun _ => Except.ok (Value.num 3)) else none }
      else none,
    methods := fun mid => if mid = "a.m" then some { name := "m" } else none }

/-- The remote request resolved by `envC5`. -/
def reqC5 : RemoteRequest := { application := "app", service := "a", method := "m", args := [] }

/-- An event target under `src res` whose action filter matches nothing the
tests send. -/
def targetMismatch : EventTargetMeta :=
  { service := "sx", method := "mm",
    routes := fun rt =>
      if rt = "src res" then some { actionFilter := "zzz", objectFilter := "*" } else none }

/-- An environment with one event registration under `src res` whose filter
does not match action `act`. -/
def envC6b : Env :=
  { application := "app",
    events := fun r => if r = "src res" then some [targetMismatch] else none,
    containerGet := fun sid => if sid = "sx" then some {} else none }

/-- A service whose sole member is the HTTP handler `m` returning the string
`raw`. -/
def svcC9 : ServiceObj :=
  { httpMethods := fun n => if n = "m" then some (fun _ => Except.ok (Value.str ("raw"))) else none }

/-- The HTTP route metadata of the C9 environments (declared code 201, no
adapter). -/
def httpMetaC9 : HttpRouteMeta := { code := 201 }

/-- Method metadata declaring the raw-response sentinel content type. -/
def mdC9r : MethodMetadata :=
  { name := "m", contentType := some ContentTypeDecl.httpResponseClass,
    http := fun rt => if rt = "GET /x" then some httpMetaC9 else none }

/-- Method metadata declaring no content type (wrapped as
`application/json`). -/
def mdC9w : MethodMetadata :=
  { name := "m", http := fun rt => if rt = "GET /x" then some httpMetaC9 else none }

/-- An HTTP environment whose resolved method declares the raw-response
sentinel content type. -/
def envC9r : Env :=
  { application := "app",
    routes := fun rt => if rt = "GET /x" then some rtC4 else none,
    containerGet := fun sid => if sid = "svc" then some svcC9 else none,
    methods := fun mid => if mid = "svc.m" then some mdC9r else none }

/-- An HTTP environment whose resolved method declares no content type, so
the default `application/json` applies and the response is wrapped. -/
def envC9w : Env :=
  { application := "app",
    routes := fun rt => if rt = "GET /x" then some rtC4 else none,
    containerGet := fun sid => if sid = "svc" then some svcC9 else none,
    methods := fun mid => if mid = "svc.m" then some mdC9w else none }

end Tyx

namespace Tyx

/-! ### Helper lemmas -/

theorem releaseLoop_ok (env : Env) (ctx : Context) (l : List String) :
    (releaseLoop env ctx l).1 = Except.ok () := by
  induction l with
  | nil => rfl
  | cons sid rest ih =>
    simp only [releaseLoop]
    split
    · exact ih
    · exact ih

theorem release_ok (env : Env) (ctx : Context) : (release env ctx).1 = Except.ok () :=
  releaseLoop_ok env ctx env.services

/-! ### C1 -/

/-- C1: for every dispatcher instance and every call to `remoteRequest`,
`eventRequest` or `httpRequest` that starts in state `Ready`, when the call
completes — whether it returns a result or throws any error — the final
state is `Ready` again (the outer `finally` resets it unconditionally). -/
theorem c1_state_restored (env : Env) (rreq : RemoteRequest) (ereq : EventRequest)
    (hreq : HttpRequest) :
    (remoteRequest env ContainerState.Ready rreq).2.1 = ContainerState.Ready
    ∧ (eventRequest env ContainerState.Ready ereq).2.1 = ContainerState.Ready
    ∧ (httpRequest env ContainerState.Ready hreq).2.1 = ContainerState.Ready := by
  refine ⟨?_, ?_, ?_⟩ <;> simp [remoteRequest, eventRequest, httpRequest]

/-! ### C2 -/

/-- C2: calling any of the three entry points while the state is not `Ready`
throws the state error (`InternalServerError "Invalid container state"`),
leaves the state unchanged, and performs no observable action at all (empty
trace: no route resolution, no container lookup, no handler invocation). -/
theorem c2_state_guard (env : Env) (s : ContainerState) (rreq : RemoteRequest)
    (ereq : EventRequest) (hreq : HttpRequest) (h : s ≠ ContainerState.Ready) :
    remoteRequest env s rreq =
      (Except.error (Err.internalServerError ("Invalid container state")), s, [])
    ∧ eventRequest env s ereq =
      (Except.error (Err.internalServerError ("Invalid container state")), s, [])
    ∧ httpRequest env s hreq =
      (Except.error (Err.internalServerError ("Invalid container state")), s, []) := by
  refine ⟨?_, ?_, ?_⟩ <;> simp [remoteRequest, eventRequest, httpRequest, h]

/-- Witness for C2 at state `Busy` with a concrete environment. -/
theorem c2_state_guard_witness :
    (ContainerState.Busy ≠ ContainerState.Ready)
    ∧ (remoteRequest envW ContainerState.Busy reqRemoteW =
        (Except.error (Err.internalServerError ("Invalid container state")), ContainerState.Busy, [])
      ∧ eventRequest envW ContainerState.Busy reqEventW =
        (Except.error (Err.internalServerError ("Invalid container state")), ContainerState.Busy, [])
      ∧ httpRequest envW ContainerState.Busy reqHttpW =
        (Except.error (Err.internalServerError ("Invalid container state")), ContainerState.Busy, [])) :=
  ⟨by decide, c2_state_guard envW ContainerState.Busy reqRemoteW reqEventW reqHttpW (by decide)⟩

/-! ### C8 -/

/-- C8: a remote request whose `application` differs from the instance's
configured application fails with `NotFound` carrying the offending
application, the state returns to `Ready`, and the trace is empty — in
particular the container lookup for the requested service is never
invoked. -/
theorem c8_application_mismatch (env : Env) (req : RemoteRequest)
    (h : req.application ≠ env.application) :
    remoteRequest env ContainerState.Ready req =
      (Except.error (Err.notFound ("Application not found [" ++ req.application ++ "]")),
        ContainerState.Ready, []) := by
  simp [remoteRequest, remoteBody, h]

/-- Witness for C8 at a concrete mismatched request. -/
theorem c8_application_mismatch_witness :
    (reqRemoteW.application ≠ envOther.application)
    ∧ remoteRequest envOther ContainerState.Ready reqRemoteW =
      (Except.error (Err.notFound ("Application not found [" ++ reqRemoteW.application ++ "]")),
        ContainerState.Ready, []) :=
  ⟨by decide, c8_application_mismatch envOther reqRemoteW (by decide)⟩

/-! ### C3 -/

/-- Counterexample to C3 as stated: a single target with two records whose
handler throws on the first record.  Only one entry (the failure) is
appended to `returns` although the request carries two records, and the
handler is invoked exactly once — the throw ends that target's record
processing, so the outcome of every record is NOT appended and processing
does NOT continue with the subsequent records of the same target. -/
theorem c3_counterexample :
    (eventRequest envC3c ContainerState.Ready reqC3c).1 =
      Except.ok
        { status := some ("FAILED"), source := "src", action := "act",
          resource := "res", object := "obj",
          returns := [
            { service := "a", method := "m",
              error := some (wrapErr (Err.custom ("recFail"))), data := none }] }
    ∧ reqC3c.records.length = 2
    ∧ ((eventRequest envC3c ContainerState.Ready reqC3c).2.2.count
        (TEvent.invoke ("a") ("m"))) = 1 :=
  ⟨rfl, rfl, rfl⟩

/-- C3 amended: when a record of a target's record list throws, one entry
with a wrapped error payload is appended for that target and its remaining
records are skipped; processing still continues with subsequent targets,
whose record outcomes are all appended; any success sets the overall status
to OK unless already FAILED, and any failure sets it to FAILED.  Shown for
every pair of records, every thrown error and every success value on a
two-target registration whose first target throws on its first record. -/
theorem c3_amended (r1 r2 v : Value) (e : Err) :
    eventRequest (envTwoTargets (fun _ _ => Except.error e) (fun _ _ => Except.ok v))
        ContainerState.Ready (reqEvent2 [r1, r2]) =
      (Except.ok
          { status := some ("FAILED"), source := "src", action := "act",
            resource := "res", object := "obj",
            returns := [
              { service := "a", method := "m", error := some (wrapErr e), data := none },
              { service := "b", method := "n", error := none, data := some v },
              { service := "b", method := "n", error := none, data := some v }] },
        ContainerState.Ready,
        [TEvent.containerGet ("a"), TEvent.invoke ("a") ("m"),
         TEvent.containerGet ("b"), TEvent.invoke ("b") ("n"), TEvent.invoke ("b") ("n")]) :=
  rfl

/-! ### C7 -/

/-- C7: an event request matching exactly two targets, a single record,
where the first target's invocation succeeds and the second target's
invocation throws, returns status FAILED with `returns` holding one entry
with `error = null` and one entry with a populated (wrapped) error, in
target-registration order.  Shown for every record value, success value and
thrown error. -/
theorem c7_two_targets (r v : Value) (e : Err) :
    eventRequest (envTwoTargets (fun _ _ => Except.ok v) (fun _ _ => Except.error e))
        ContainerState.Ready (reqEvent2 [r]) =
      (Except.ok
          { status := some ("FAILED"), source := "src", action := "act",
            resource := "res", object := "obj",
            returns := [
              { service := "a", method := "m", error := none, data := some v },
              { service := "b", method := "n", error := some (wrapErr e), data := none }] },
        ContainerState.Ready,
        [TEvent.containerGet ("a"), TEvent.invoke ("a") ("m"),
         TEvent.containerGet ("b"), TEvent.invoke ("b") ("n")]) :=
  rfl

/-! ### C4 -/

/-- Counterexample to C4 as stated: on the event path an activation failure
does not make the call reject.  With the sole registered service failing
activation, `eventRequest` completes successfully (returns `Except.ok` with
status FAILED and the wrapped activation error recorded inside `returns`)
instead of rejecting with the activation error. -/
theorem c4_counterexample :
    (eventRequest envC4 ContainerState.Ready (reqEvent2 [Value.num 1])).1 =
      Except.ok
        { status := some ("FAILED"), source := "src", action := "act",
          resource := "res", object := "obj",
          returns := [
            { service := "svc", method := "m",
              error := some (wrapErr (Err.custom ("actFail"))), data := none }] }
    ∧ (∀ s m, TEvent.invoke s m ∉ (eventRequest envC4 ContainerState.Ready (reqEvent2 [Value.num 1])).2.2)
    ∧ TEvent.releaseHook ("svc") ∈ (eventRequest envC4 ContainerState.Ready (reqEvent2 [Value.num 1])).2.2 := by
  refine ⟨rfl, ?_, by decide⟩
  intro s m
  show TEvent.invoke s m ∉ [TEvent.containerGet ("svc"), TEvent.containerGet ("svc"),
    TEvent.activateHook ("svc"), TEvent.containerGet ("svc"), TEvent.releaseHook ("svc")]
  simp

/-! ### C10 -/

theorem eventRecords_returns_append (service : ServiceObj) (target : EventTargetMeta)
    (ctx : Context) :
    ∀ (records : List Value) (req : EventRequest) (result : EventResult),
    ∃ es, ((eventRecords service target ctx req result records).2.1).returns
        = result.returns ++ es
      ∧ ∀ x ∈ es, x.error = none := by
  intro records
  induction records with
  | nil => intro req result; exact ⟨[], by simp [eventRecords], by simp⟩
  | cons record rest ih =>
    intro req result
    simp only [eventRecords]
    split
    · exact ⟨[], by simp, by simp⟩
    · rename_i data heq
      obtain ⟨es, h1, h2⟩ := ih { req with record := some record }
        { result with
          status := some ((result.status).getD ("OK")),
          returns := result.returns ++
            [{ service := target.service, method := target.method,
               error := none, data := some data }] }
      refine ⟨okReturn target data :: es, ?_, ?_⟩
      · simpa [okReturn] using h1
      · intro x hx
        rcases List.mem_cons.mp hx with hx | hx
        · rw [hx]; rfl
        · exact h2 x hx

/-- C10: within the `returns` entries contributed by a single target (the
per-target `try { activate; records } catch` block), every entry except
possibly the last has `error = null` — so at most one entry has a non-null
error and, when present, it is the last entry that target contributed (a
throwing record ends the target's record processing and its remaining
records contribute no entries). -/
theorem c10_error_entry_is_last (env : Env) (service : ServiceObj) (target : EventTargetMeta)
    (ctx : Context) (req : EventRequest) (result : EventResult) :
    ∃ es, ((eventTargetRun env service target ctx req result).1).returns
        = result.returns ++ es
      ∧ ∀ x ∈ es.dropLast, x.error = none := by
  simp only [eventTargetRun]
  split
  · rename_i e heq
    exact ⟨[errReturn target e], by simp [errReturn], by simp⟩
  · obtain ⟨es, h1, h2⟩ := eventRecords_returns_append service target ctx req.records req result
    split
    · exact ⟨es, by simpa using h1, fun x hx => h2 x (List.dropLast_subset _ hx)⟩
    · rename_i e heq
      refine ⟨es ++ [errReturn target e], ?_, ?_⟩
      · simp [h1, errReturn]
      · intro x hx
        rw [List.dropLast_concat] at hx
        exact h2 x hx

/-! ### C6 -/

theorem eventTargets_skip (env : Env) (route : String) :
    ∀ (ms : List EventTargetMeta) (req : EventRequest) (result : EventResult),
    (∀ t ∈ ms, ∃ svc filter, env.containerGet t.service = some svc
        ∧ t.routes route = some filter
        ∧ (wildcardMatch filter.actionFilter req.action = false
            ∨ wildcardMatch filter.objectFilter req.object = false)) →
    (eventTargets env route req result ms).1 = Except.ok result := by
  intro ms
  induction ms with
  | nil => intro req result _; rfl
  | cons t rest ih =>
    intro req result h
    obtain ⟨svc, filter, hg, hr, hm⟩ := h t (List.mem_cons_self t rest)
    have hcond : (!(wildcardMatch filter.actionFilter req.action)
        || !(wildcardMatch filter.objectFilter req.object)) = true := by
      rcases hm with hm | hm <;> simp [hm]
    simp only [eventTargets, hg, hr, hcond]
    simp only [if_true]
    exact ih req result fun t2 ht2 => h t2 (List.mem_cons_of_mem t ht2)

/-- Counterexample to C6 as stated: with zero registered targets for both
the route key `src res` and the alias route key (no resource aliases are
configured, so the fallback key is `src undefined`), `eventRequest` does not
return `{status: NOP, returns: []}` — it throws `NotFound` naming the
fallback route key. -/
theorem c6_counterexample :
    eventRequest envW ContainerState.Ready reqEventW =
      (Except.error (Err.notFound ("Event handler not found [src undefined] [obj]")),
        ContainerState.Ready, [])
    ∧ (eventRequest envW ContainerState.Ready reqEventW).1 ≠
      Except.ok
        { status := some ("NOP"), source := "src", action := "act",
          resource := "res", object := "obj", returns := [] } := by
  constructor
  · rfl
  · intro h
    rw [show (eventRequest envW ContainerState.Ready reqEventW).1
        = Except.error (Err.notFound ("Event handler not found [src undefined] [obj]"))
      from rfl] at h
    exact Except.noConfusion h

/-- C6 amended: when neither the route key `"{source} {resource}"` nor the
alias route key has a registration list, `eventRequest` throws `NotFound`
(naming the route key it last tried); the `{status: "NOP", returns: []}`
outcome arises when a registration list is found (directly or via the alias
fallback) but zero of its targets pass the action/object wildcard
filters. -/
theorem c6_amended :
    (∀ (env : Env) (req : EventRequest),
      (eventLookup env { req with type := some ("event") }).2 = none →
      eventRequest env ContainerState.Ready req =
        (Except.error (Err.notFound ("Event handler not found ["
            ++ (eventLookup env { req with type := some ("event") }).1
            ++ "] [" ++ req.object ++ "]")),
          ContainerState.Ready, []))
    ∧ (∀ (env : Env) (req : EventRequest) (route : String) (ms : List EventTargetMeta),
      eventLookup env { req with type := some ("event") } = (route, some ms) →
      (∀ t ∈ ms, ∃ svc filter, env.containerGet t.service = some svc
          ∧ t.routes route = some filter
          ∧ (wildcardMatch filter.actionFilter req.action = false
              ∨ wildcardMatch filter.objectFilter req.object = false)) →
      (eventRequest env ContainerState.Ready req).1 =
        Except.ok
          { status := some ("NOP"), source := req.source, action := req.action,
            resource := req.resource, object := req.object, returns := [] }) := by
  constructor
  · intro env req h
    rcases he : eventLookup env { req with type := some ("event") } with ⟨route, mm⟩
    rw [he] at h
    have hm : mm = none := h
    subst hm
    simp only [eventRequest, eventBody, he]
    simp
  · intro env req route ms he hall
    have hskip := eventTargets_skip env route ms { req with type := some ("event") }
      { status := none, source := req.source, action := req.action,
        resource := req.resource, object := req.object, returns := [] } hall
    simp only [eventRequest, eventBody, he, hskip]
    simp

/-- Witness for C6 amended: an environment with no event registrations
throws `NotFound`, and an environment whose single registration under
`src res` filters out action `act` returns NOP with empty returns. -/
theorem c6_amended_witness :
    ((eventLookup envW { reqEventW with type := some ("event") }).2 = none
      ∧ eventRequest envW ContainerState.Ready reqEventW =
        (Except.error (Err.notFound ("Event handler not found ["
            ++ (eventLookup envW { reqEventW with type := some ("event") }).1
            ++ "] [" ++ reqEventW.object ++ "]")),
          ContainerState.Ready, []))
    ∧ (eventLookup envC6b { reqEventW with type := some ("event") } = ("src res", some [targetMismatch])
      ∧ (eventRequest envC6b ContainerState.Ready reqEventW).1 =
        Except.ok
          { status := some ("NOP"), source := reqEventW.source, action := reqEventW.action,
            resource := reqEventW.resource, object := reqEventW.object, returns := [] }) := by
  refine ⟨⟨rfl, c6_amended.1 envW reqEventW rfl⟩, rfl, c6_amended.2 envC6b reqEventW
    ("src res") [targetMismatch] rfl ?_⟩
  intro t ht
  rw [List.mem_singleton.mp ht]
  exact ⟨{}, { actionFilter := "zzz", objectFilter := "*" }, rfl, rfl, Or.inl (by decide)⟩

/-! ### C5 -/

theorem Env_withRelease_containerGet (env : Env) (hooks : String → Option (Context → Except Err Unit))
    (sid : String) :
    (env.withRelease hooks).containerGet sid
      = (env.containerGet sid).map fun s => ServiceObj.withRelease s (hooks sid) := rfl

theorem Env_withRelease_application (env : Env) (hooks : String → Option (Context → Except Err Unit)) :
    (env.withRelease hooks).application = env.application := rfl

theorem Env_withRelease_configResources (env : Env) (hooks : String → Option (Context → Except Err Unit)) :
    (env.withRelease hooks).configResources = env.configResources := rfl

theorem Env_withRelease_services (env : Env) (hooks : String → Option (Context → Except Err Unit)) :
    (env.withRelease hooks).services = env.services := rfl

theorem Env_withRelease_methods (env : Env) (hooks : String → Option (Context → Except Err Unit)) :
    (env.withRelease hooks).methods = env.methods := rfl

theorem Env_withRelease_events (env : Env) (hooks : String → Option (Context → Except Err Unit)) :
    (env.withRelease hooks).events = env.events := rfl

theorem Env_withRelease_routes (env : Env) (hooks : String → Option (Context → Except Err Unit)) :
    (env.withRelease hooks).routes = env.routes := rfl

theorem Env_withRelease_remoteAuth (env : Env) (hooks : String → Option (Context → Except Err Unit)) :
    (env.withRelease hooks).remoteAuth = env.remoteAuth := rfl

theorem Env_withRelease_eventAuth (env : Env) (hooks : String → Option (Context → Except Err Unit)) :
    (env.withRelease hooks).eventAuth = env.eventAuth := rfl

theorem Env_withRelease_httpAuth (env : Env) (hooks : String → Option (Context → Except Err Unit)) :
    (env.withRelease hooks).httpAuth = env.httpAuth := rfl

theorem Env_withRelease_httpNormalize (env : Env) (hooks : String → Option (Context → Except Err Unit)) :
    (env.withRelease hooks).httpNormalize = env.httpNormalize := rfl

theorem withRelease_activateHook (s : ServiceObj) (h : Option (Context → Except Err Unit)) :
    (ServiceObj.withRelease s h).activate = s.activate := rfl

theorem withRelease_releaseHook (s : ServiceObj) (h : Option (Context → Except Err Unit)) :
    (ServiceObj.withRelease s h).release = h := rfl

theorem withRelease_remoteMethods (s : ServiceObj) (h : Option (Context → Except Err Unit)) :
    (ServiceObj.withRelease s h).remoteMethods = s.remoteMethods := rfl

theorem withRelease_eventMethods (s : ServiceObj) (h : Option (Context → Except Err Unit)) :
    (ServiceObj.withRelease s h).eventMethods = s.eventMethods := rfl

theorem withRelease_httpMethods (s : ServiceObj) (h : Option (Context → Except Err Unit)) :
    (ServiceObj.withRelease s h).httpMethods = s.httpMethods := rfl

theorem eventRecords_withRelease (svc : ServiceObj) (h : Option (Context → Except Err Unit))
    (target : EventTargetMeta) (ctx : Context) :
    ∀ (records : List Value) (req : EventRequest) (result : EventResult),
    eventRecords (ServiceObj.withRelease svc h) target ctx req result records
      = eventRecords svc target ctx req result records := by
  intro records
  induction records with
  | nil => intro req result; rfl
  | cons record rest ih =>
    intro req result
    simp only [eventRecords, withRelease_eventMethods, ih]

theorem activateLoop_withRelease (env : Env) (hooks : String → Option (Context → Except Err Unit))
    (ctx : Context) (l : List String) :
    activateLoop (env.withRelease hooks) ctx l = activateLoop env ctx l := by
  induction l with
  | nil => rfl
  | cons sid rest ih =>
    cases hg : env.containerGet sid with
    | none =>
      simp only [activateLoop, Env_withRelease_containerGet, hg, Option.map_none']
    | some svc =>
      cases ha : svc.activate with
      | none =>
        simp only [activateLoop, Env_withRelease_containerGet, hg, Option.map_some',
          ServiceObj.withRelease, ha, ih]
      | some hook =>
        simp only [activateLoop, Env_withRelease_containerGet, hg, Option.map_some',
          ServiceObj.withRelease, ha, ih]

theorem activate_withRelease (env : Env) (hooks : String → Option (Context → Except Err Unit))
    (ctx : Context) :
    activate (env.withRelease hooks) ctx = activate env ctx := by
  simp only [activate, activateLoop_withRelease]
  rfl

theorem eventTargetRun_withRelease (env : Env)
    (hooks : String → Option (Context → Except Err Unit))
    (svc : ServiceObj) (h : Option (Context → Except Err Unit)) (target : EventTargetMeta)
    (ctx : Context) (req : EventRequest) (result : EventResult) :
    eventTargetRun (env.withRelease hooks) (ServiceObj.withRelease svc h) target ctx req result
      = eventTargetRun env svc target ctx req result := by
  simp only [eventTargetRun, activate_withRelease, eventRecords_withRelease]

theorem eventTargets_withRelease (env : Env)
    (hooks : String → Option (Context → Except Err Unit)) (route : String) :
    ∀ (ms : List EventTargetMeta) (req : EventRequest) (result : EventResult),
    (eventTargets (env.withRelease hooks) route req result ms).1
      = (eventTargets env route req result ms).1 := by
  intro ms
  induction ms with
  | nil => intro req result; rfl
  | cons t rest ih =>
    intro req result
    cases hg : env.containerGet t.service with
    | none =>
      simp only [eventTargets, Env_withRelease_containerGet, hg, Option.map_none']
    | some svc =>
      cases hrt : t.routes route with
      | none =>
        simp only [eventTargets, Env_withRelease_containerGet, hg, Option.map_some', hrt]
      | some filter =>
        cases hc : (!(wildcardMatch filter.actionFilter req.action)
            || !(wildcardMatch filter.objectFilter req.object)) with
        | true =>
          simp only [eventTargets, Env_withRelease_containerGet, hg, Option.map_some', hrt, hc]
          simp only [if_true]
          simp only [ih]
        | false =>
          simp only [eventTargets, Env_withRelease_containerGet, Env_withRelease_application,
            Env_withRelease_methods, Env_withRelease_eventAuth, Env_withRelease_services,
            hg, Option.map_some', hrt, hc]
          simp only [Bool.false_eq_true, if_false]
          cases hau : env.eventAuth
              { req with
                  application := some env.application,
                  service := some t.service,
                  method := some t.method }
              (env.methods (t.service ++ "." ++ t.method)) with
          | error e => simp only [hau]
          | ok ctx =>
            simp only [hau, eventTargetRun_withRelease, release, releaseLoop_ok,
              Env_withRelease_services, ih]

theorem eventBody_withRelease (env : Env)
    (hooks : String → Option (Context → Except Err Unit)) (req0 : EventRequest) :
    (eventBody (env.withRelease hooks) req0).1 = (eventBody env req0).1 := by
  have hl : eventLookup (env.withRelease hooks) { req0 with type := some ("event") }
      = eventLookup env { req0 with type := some ("event") } := rfl
  rcases he : eventLookup env { req0 with type := some ("event") } with ⟨route, mm⟩
  cases mm with
  | none => simp only [eventBody, hl, he]
  | some ms =>
    simp only [eventBody, hl, he, eventTargets_withRelease]
    split <;> rfl

theorem eventRequest_withRelease (env : Env)
    (hooks : String → Option (Context → Except Err Unit)) (s : ContainerState)
    (req : EventRequest) :
    (eventRequest (env.withRelease hooks) s req).1 = (eventRequest env s req).1 := by
  by_cases h : s = ContainerState.Ready
  · subst h
    simp [eventRequest, eventBody_withRelease]
  · simp [eventRequest, h]

theorem remoteBody_withRelease (env : Env)
    (hooks : String → Option (Context → Except Err Unit)) (req : RemoteRequest) :
    (remoteBody (env.withRelease hooks) req).1 = (remoteBody env req).1 := by
  by_cases happ : req.application = env.application
  · cases hg : env.containerGet req.service with
    | none =>
      simp only [remoteBody, Env_withRelease_application, Env_withRelease_containerGet,
        hg, Option.map_none']
    | some svc =>
      cases hm : env.methods (req.service ++ "." ++ req.method) with
      | none =>
        simp only [remoteBody, Env_withRelease_application, Env_withRelease_containerGet,
          Env_withRelease_methods, hg, Option.map_some', hm]
      | some metadata =>
        cases hau : env.remoteAuth req metadata with
        | error e =>
          simp only [remoteBody, Env_withRelease_application, Env_withRelease_containerGet,
            Env_withRelease_methods, Env_withRelease_remoteAuth, hg, Option.map_some', hm, hau]
        | ok ctx =>
          simp only [remoteBody, Env_withRelease_application, Env_withRelease_containerGet,
            Env_withRelease_methods, Env_withRelease_remoteAuth, Env_withRelease_services,
            withRelease_remoteMethods, hg, Option.map_some', hm, hau,
            activate_withRelease, release, releaseLoop_ok]
          simp [happ]
  · simp only [remoteBody, Env_withRelease_application, ne_eq, happ, not_false_eq_true,
      if_true]

theorem httpInvoke_withRelease (svc : ServiceObj) (h : Option (Context → Except Err Unit))
    (method : MethodMetadata) (http : HttpRouteMeta) (ctx : Context) (req : HttpRequest) :
    httpInvoke (ServiceObj.withRelease svc h) method http ctx req
      = httpInvoke svc method http ctx req := by
  simp only [httpInvoke, withRelease_httpMethods]

theorem httpBody_withRelease (env : Env)
    (hooks : String → Option (Context → Except Err Unit)) (req0 : HttpRequest) :
    (httpBody (env.withRelease hooks) req0).1 = (httpBody env req0).1 := by
  simp only [httpBody, Env_withRelease_httpNormalize, Env_withRelease_application,
    Env_withRelease_routes, Env_withRelease_methods, Env_withRelease_httpAuth,
    Env_withRelease_containerGet, Env_withRelease_services]
  cases hro : env.routes (match (env.httpNormalize { req0 with type := some ("http") }).contentType.domainModel with
    | some dm => (env.httpNormalize { req0 with type := some ("http") }).httpMethod ++ " "
        ++ (env.httpNormalize { req0 with type := some ("http") }).resource ++ ":" ++ dm
    | none => (env.httpNormalize { req0 with type := some ("http") }).httpMethod ++ " "
        ++ (env.httpNormalize { req0 with type := some ("http") }).resource) with
  | none => simp only [hro]
  | some target =>
    simp only [hro]
    cases hg : env.containerGet target.service with
    | none => simp only [hg, Option.map_none']
    | some svc =>
      simp only [hg, Option.map_some']
      cases hau : env.httpAuth
          { env.httpNormalize { req0 with type := some ("http") } with
              application := some env.application,
              service := some target.service,
              method := some target.method }
          (env.methods (target.service ++ "." ++ target.method)) with
      | error e => simp only [hau]
      | ok ctx =>
        simp only [hau, activate_withRelease, httpInvoke_withRelease, release, releaseLoop_ok]

theorem remoteRequest_withRelease (env : Env)
    (hooks : String → Option (Context → Except Err Unit)) (s : ContainerState)
    (req : RemoteRequest) :
    (remoteRequest (env.withRelease hooks) s req).1 = (remoteRequest env s req).1 := by
  by_cases h : s = ContainerState.Ready
  · subst h
    simp [remoteRequest, remoteBody_withRelease]
  · simp [remoteRequest, h]

theorem httpRequest_withRelease (env : Env)
    (hooks : String → Option (Context → Except Err Unit)) (s : ContainerState)
    (req : HttpRequest) :
    (httpRequest (env.withRelease hooks) s req).1 = (httpRequest env s req).1 := by
  by_cases h : s = ContainerState.Ready
  · subst h
    simp [httpRequest, httpBody_withRelease]
  · simp [httpRequest, h]

theorem releaseLoop_mem (env : Env) (ctx : Context) :
    ∀ (l : List String) (sid : String) (svcO : ServiceObj),
    sid ∈ l → env.containerGet sid = some svcO → (svcO.release).isSome = true →
    TEvent.releaseHook sid ∈ (releaseLoop env ctx l).2 := by
  intro l
  induction l with
  | nil => intro sid svcO h; cases h
  | cons a rest ih =>
    intro sid svcO hmem hg hs
    rcases List.mem_cons.mp hmem with h | h
    · subst h
      rw [Option.isSome_iff_exists] at hs
      obtain ⟨hook, hh⟩ := hs
      simp only [releaseLoop, hg, hh]
      split <;> simp
    · have hmem2 := ih sid svcO h hg hs
      simp only [releaseLoop]
      split <;> split <;> simp [hmem2]

/-- C5: `release` never throws — every hook failure is caught per service
and swallowed (first conjunct); the remaining services' hooks still run no
matter what (second conjunct: every registered service with a `release`
hook has its hook invoked on every `release` call, for arbitrary hook
behaviour); and the outcome of every request — result or surfaced error —
is entirely independent of the release hooks, so an otherwise-successful
handler result is returned intact and a release error appears nowhere in
any result or error surfaced to the caller (last three conjuncts). -/
theorem c5_release_never_throws :
    (∀ (env : Env) (ctx : Context), (release env ctx).1 = Except.ok ())
    ∧ (∀ (env : Env) (ctx : Context) (sid : String) (svcO : ServiceObj),
        sid ∈ env.services → env.containerGet sid = some svcO →
        (svcO.release).isSome = true →
        TEvent.releaseHook sid ∈ (release env ctx).2)
    ∧ (∀ (env : Env) (hooks : String → Option (Context → Except Err Unit))
        (s : ContainerState) (req : RemoteRequest),
        (remoteRequest (env.withRelease hooks) s req).1 = (remoteRequest env s req).1)
    ∧ (∀ (env : Env) (hooks : String → Option (Context → Except Err Unit))
        (s : ContainerState) (req : EventRequest),
        (eventRequest (env.withRelease hooks) s req).1 = (eventRequest env s req).1)
    ∧ (∀ (env : Env) (hooks : String → Option (Context → Except Err Unit))
        (s : ContainerState) (req : HttpRequest),
        (httpRequest (env.withRelease hooks) s req).1 = (httpRequest env s req).1) :=
  ⟨release_ok,
    fun env ctx sid svcO hmem hg hs => releaseLoop_mem env ctx env.services sid svcO hmem hg hs,
    remoteRequest_withRelease, eventRequest_withRelease, httpRequest_withRelease⟩

/-- Witness for C5: in an environment whose sole service has a throwing
release hook, `release` still reports success and runs the hook, and a
remote request still returns the handler's successful result, identical to
what it returns with all release hooks removed. -/
theorem c5_release_never_throws_witness :
    ((release envC5 ctx0).1 = Except.ok ()
      ∧ TEvent.releaseHook ("a") ∈ (release envC5 ctx0).2
      ∧ (remoteRequest (envC5.withRelease fun _ => none) ContainerState.Ready reqC5).1
          = (remoteRequest envC5 ContainerState.Ready reqC5).1)
    ∧ (remoteRequest envC5 ContainerState.Ready reqC5).1 = Except.ok (Value.num 3) :=
  ⟨⟨c5_release_never_throws.1 envC5 ctx0,
    c5_release_never_throws.2.1 envC5 ctx0 ("a")
      { release := some (fun _ => Except.error (Err.custom ("relFail"))),
        remoteMethods := fun m => if m = "m" then some (fun _ => Except.ok (Value.num 3)) else none }
      (by simp [envC5]) rfl rfl,
    c5_release_never_throws.2.2.1 envC5 (fun _ => none) ContainerState.Ready reqC5⟩,
    rfl⟩

/-! ### C4 amended -/

theorem activateLoop_no_invoke (env : Env) (ctx : Context) :
    ∀ (l : List String) (s m : String), TEvent.invoke s m ∉ (activateLoop env ctx l).2 := by
  intro l
  induction l with
  | nil => intro s m h; cases h
  | cons a rest ih =>
    intro s m
    cases hg : env.containerGet a with
    | none => simp [activateLoop, hg]
    | some svc =>
      cases ha : svc.activate with
      | none => simp [activateLoop, hg, ha, ih]
      | some hook =>
        cases hh : hook ctx with
        | error e => simp [activateLoop, hg, ha, hh]
        | ok u => simp [activateLoop, hg, ha, hh, ih]

theorem releaseLoop_no_invoke (env : Env) (ctx : Context) :
    ∀ (l : List String) (s m : String), TEvent.invoke s m ∉ (releaseLoop env ctx l).2 := by
  intro l
  induction l with
  | nil => intro s m h; cases h
  | cons a rest ih =>
    intro s m
    cases hg : env.containerGet a with
    | none => simp [releaseLoop, hg, ih]
    | some svc =>
      cases ha : svc.release with
      | none => simp [releaseLoop, hg, ha, ih]
      | some hook =>
        simp only [releaseLoop, hg, ha]
        split <;> simp [ih]

/-- C4 amended: when a registered service's `activate` hook throws during a
remote or HTTP request (after successful resolution and auth), the resolved
handler is never invoked (no `invoke` event in the trace), the release loop
still performs its full iteration (every registered service with a
`release` hook has it run), and the call rejects — the remote path with the
activation error exactly as thrown, the HTTP path with the activation error
wrapped as an internal error.  On the event path (the counterexample) the
activation failure is caught per target, recorded inside `returns`, and the
call itself completes. -/
theorem c4_amended :
    (∀ (env : Env) (req : RemoteRequest) (service : ServiceObj) (metadata : MethodMetadata)
        (ctx : Context) (e : Err),
      req.application = env.application →
      env.containerGet req.service = some service →
      env.methods (req.service ++ "." ++ req.method) = some metadata →
      env.remoteAuth req metadata = Except.ok ctx →
      (activateLoop env ctx env.services).1 = Except.error e →
      (remoteRequest env ContainerState.Ready req).1 = Except.error e
      ∧ (∀ s m, TEvent.invoke s m ∉ (remoteRequest env ContainerState.Ready req).2.2)
      ∧ (∀ sid svcO, sid ∈ env.services → env.containerGet sid = some svcO →
          (svcO.release).isSome = true →
          TEvent.releaseHook sid ∈ (remoteRequest env ContainerState.Ready req).2.2))
    ∧ (∀ (env : Env) (req0 reqN reqM : HttpRequest) (route : String)
        (target : RouteTargetMeta) (service : ServiceObj) (ctx : Context) (e : Err),
      reqN = env.httpNormalize { req0 with type := some ("http") } →
      route = (match reqN.contentType.domainModel with
        | some dm => reqN.httpMethod ++ " " ++ reqN.resource ++ ":" ++ dm
        | none => reqN.httpMethod ++ " " ++ reqN.resource) →
      env.routes route = some target →
      env.containerGet target.service = some service →
      reqM =
        { reqN with
            application := some env.application,
            service := some target.service,
            method := some target.method } →
      env.httpAuth reqM (env.methods (target.service ++ "." ++ target.method)) = Except.ok ctx →
      (activateLoop env ctx env.services).1 = Except.error e →
      (httpRequest env ContainerState.Ready req0).1 = Except.error (wrapErr e)
      ∧ (∀ s m, TEvent.invoke s m ∉ (httpRequest env ContainerState.Ready req0).2.2)
      ∧ (∀ sid svcO, sid ∈ env.services → env.containerGet sid = some svcO →
          (svcO.release).isSome = true →
          TEvent.releaseHook sid ∈ (httpRequest env ContainerState.Ready req0).2.2)) := by
  constructor
  · intro env req service metadata ctx e h1 h2 h3 h4 h5
    have hact : activate env ctx = (Except.error e, (activateLoop env ctx env.services).2) := by
      simp only [activate, h5]
    have hmain : remoteRequest env ContainerState.Ready req
        = (Except.error e, ContainerState.Ready,
          [TEvent.containerGet req.service] ++ (activateLoop env ctx env.services).2
            ++ (releaseLoop env ctx env.services).2) := by
      simp only [remoteRequest, remoteBody, h2, h3, h4, hact, release, releaseLoop_ok]
      simp [h1]
    refine ⟨by rw [hmain], ?_, ?_⟩
    · intro s m
      rw [hmain]
      simp [activateLoop_no_invoke env ctx env.services s m,
        releaseLoop_no_invoke env ctx env.services s m]
    · intro sid svcO hmem hgs hrs
      rw [hmain]
      simp [releaseLoop_mem env ctx env.services sid svcO hmem hgs hrs]
  · intro env req0 reqN reqM route target service ctx e hN hroute h2 h3 hM h4 h5
    subst hN
    subst hroute
    subst hM
    have hact : activate env ctx = (Except.error e, (activateLoop env ctx env.services).2) := by
      simp only [activate, h5]
    have hmain : httpRequest env ContainerState.Ready req0
        = (Except.error (wrapErr e), ContainerState.Ready,
          [TEvent.containerGet target.service] ++ (activateLoop env ctx env.services).2
            ++ (releaseLoop env ctx env.services).2) := by
      simp only [httpRequest, httpBody, h2, h3, h4, hact, release, releaseLoop_ok]
      simp
    refine ⟨by rw [hmain], ?_, ?_⟩
    · intro s m
      rw [hmain]
      simp [activateLoop_no_invoke env ctx env.services s m,
        releaseLoop_no_invoke env ctx env.services s m]
    · intro sid svcO hmem hgs hrs
      rw [hmain]
      simp [releaseLoop_mem env ctx env.services sid svcO hmem hgs hrs]

/-- Witness for C4 amended: in the concrete environment `envC4`, whose sole
registered service fails activation, the remote call rejects with the raw
activation error, the HTTP call with the wrapped one; neither invokes the
handler and both run the release hook. -/
theorem c4_amended_witness :
    ((remoteRequest envC4 ContainerState.Ready reqRemoteW).1 = Except.error (Err.custom ("actFail"))
      ∧ TEvent.invoke ("svc") ("m") ∉ (remoteRequest envC4 ContainerState.Ready reqRemoteW).2.2
      ∧ TEvent.releaseHook ("svc") ∈ (remoteRequest envC4 ContainerState.Ready reqRemoteW).2.2)
    ∧ ((httpRequest envC4 ContainerState.Ready reqHttpW).1 = Except.error (wrapErr (Err.custom ("actFail")))
      ∧ TEvent.invoke ("svc") ("m") ∉ (httpRequest envC4 ContainerState.Ready reqHttpW).2.2
      ∧ TEvent.releaseHook ("svc") ∈ (httpRequest envC4 ContainerState.Ready reqHttpW).2.2) := by
  have hr := c4_amended.1 envC4 reqRemoteW svcActFail mdC4 ctx0 (Err.custom ("actFail"))
    rfl rfl rfl rfl rfl
  have hh := c4_amended.2 envC4 reqHttpW reqHttpN reqHttpM ("GET /x") rtC4 svcActFail ctx0
    (Err.custom ("actFail")) rfl rfl rfl rfl rfl rfl rfl
  exact ⟨⟨hr.1, hr.2.1 ("svc") ("m"), hr.2.2 ("svc") svcActFail (by decide) rfl rfl⟩,
    ⟨hh.1, hh.2.1 ("svc") ("m"), hh.2.2 ("svc") svcActFail (by decide) rfl rfl⟩⟩

/-! ### C9 -/

/-- C9: after successful resolution, auth, activation and handler
invocation, if the resolved method's declared content type is the
raw-response sentinel (the `HttpResponse` class), `httpRequest` returns the
handler's return value without `{statusCode, body, contentType}` wrapping
(and exactly the handler's value when no token was renewed); for every
other declared content type the value is wrapped as
`{statusCode: declared code, body: value, contentType}`. -/
theorem c9_raw_sentinel (env : Env) (req0 reqN reqM : HttpRequest) (route : String)
    (target : RouteTargetMeta) (service : ServiceObj) (method : MethodMetadata)
    (http : HttpRouteMeta) (ctx : Context) (v : Value)
    (hN : reqN = env.httpNormalize { req0 with type := some ("http") })
    (hroute : route = (match reqN.contentType.domainModel with
      | some dm => reqN.httpMethod ++ " " ++ reqN.resource ++ ":" ++ dm
      | none => reqN.httpMethod ++ " " ++ reqN.resource))
    (h1 : env.routes route = some target)
    (h2 : env.containerGet target.service = some service)
    (h3 : env.methods (target.service ++ "." ++ target.method) = some method)
    (hM : reqM =
      { reqN with
          application := some env.application,
          service := some target.service,
          method := some target.method })
    (h4 : env.httpAuth reqM (some method) = Except.ok ctx)
    (h5 : (activateLoop env ctx env.services).1 = Except.ok ())
    (h6 : method.http route = some http)
    (h7 : (httpInvoke service method http ctx reqM).1 = Except.ok v) :
    ((method.contentType).getD (ContentTypeDecl.text ("application/json"))
        = ContentTypeDecl.httpResponseClass →
      (httpRequest env ContainerState.Ready req0).1 = Except.ok (injectToken ctx v))
    ∧ (∀ ctv, (method.contentType).getD (ContentTypeDecl.text ("application/json"))
        = ContentTypeDecl.text ctv →
      (httpRequest env ContainerState.Ready req0).1 =
        Except.ok (injectToken ctx (Value.obj [(("statusCode"), Value.num http.code),
          (("body"), v), (("contentType"), Value.str ctv)])))
    ∧ ((method.contentType).getD (ContentTypeDecl.text ("application/json"))
        = ContentTypeDecl.httpResponseClass → ctx.auth.renewed = false →
      (httpRequest env ContainerState.Ready req0).1 = Except.ok v) := by
  subst hN
  subst hroute
  subst hM
  have hact : activate env ctx = (Except.ok ctx, (activateLoop env ctx env.services).2) := by
    simp only [activate, h5]
  have hmain : (httpRequest env ContainerState.Ready req0).1
      = Except.ok (injectToken ctx
          (if (method.contentType).getD (ContentTypeDecl.text ("application/json"))
              ≠ ContentTypeDecl.httpResponseClass then
            Value.obj [(("statusCode"), Value.num http.code), (("body"), v),
              (("contentType"), Value.str (((method.contentType).getD
                (ContentTypeDecl.text ("application/json"))).render))]
          else v)) := by
    simp only [httpRequest, httpBody, h1, h2, h3, h4, hact, h6, h7, release, releaseLoop_ok]
    simp
  refine ⟨?_, ?_, ?_⟩
  · intro hct
    rw [hmain, hct]
    simp
  · intro ctv hct
    rw [hmain, hct]
    simp [ContentTypeDecl.render]
  · intro hct hren
    rw [hmain, hct]
    simp [injectToken, hren]

/-- Witness for C9: the sentinel environment returns the handler's raw
string unwrapped; the default-content-type environment wraps it with the
declared code 201 and `application/json`. -/
theorem c9_raw_sentinel_witness :
    ((httpRequest envC9r ContainerState.Ready reqHttpW).1 = Except.ok (Value.str ("raw")))
    ∧ ((httpRequest envC9w ContainerState.Ready reqHttpW).1 =
        Except.ok (injectToken ctx0 (Value.obj [(("statusCode"), Value.num 201),
          (("body"), Value.str ("raw")), (("contentType"), Value.str ("application/json"))]))) := by
  have hraw := c9_raw_sentinel envC9r reqHttpW reqHttpN reqHttpM ("GET /x") rtC4 svcC9 mdC9r
    httpMetaC9 ctx0 (Value.str ("raw")) rfl rfl rfl rfl rfl rfl rfl rfl rfl rfl
  have hwrap := c9_raw_sentinel envC9w reqHttpW reqHttpN reqHttpM ("GET /x") rtC4 svcC9 mdC9w
    httpMetaC9 ctx0 (Value.str ("raw")) rfl rfl rfl rfl rfl rfl rfl rfl rfl rfl
  exact ⟨hraw.2.2 rfl rfl, hwrap.2.1 ("application/json") rfl⟩

end Tyx
